import Mathlib

set_option maxRecDepth 100000
set_option maxHeartbeats 1000000

/-!
# Verification of the `militery` news-sync service (src/militery/main.py)

Shallow embedding of the core logic of `main.py`:

* `universal_intercept` (discovery heuristic, lines 61-111), with the network
  fetch and the JSON API response externalised as explicit inputs;
* `get_deep_summary` (summarization adapter, lines 113-126), with the fetched
  paragraph list and the model externalised as explicit inputs;
* `background_worker` (sync engine, lines 129-155), modelled as a list of
  micro-steps over an explicit worker state, so that interleaved reads of the
  published cache can be inspected at every intermediate point;
* the `threading.Event` trigger used by `force_sync` (lines 193-197);
* the `fetch_news` filter (lines 180-184).

Python strings are modelled as Lean `String` (code-point sequences, matching
Python's `len` and slicing).  String primitives that the source uses
(`strip`, `count`, `in`, `startswith`, slicing, `lower`, `upper`) are given
explicit structurally-recursive definitions over `List Char` so that every
definition evaluates inside the kernel.
-/

namespace Militery

/-! ## Python string primitives -/

/-- Python `str.count(' ')`: the number of space characters in the string
(`title.count(' ')` at main.py line 97 counts single characters, since the
needle has length 1). -/
def countSpaces (s : String) : Nat :=
  s.toList.count ' '

/-- Python `str.strip()`: drop leading and trailing whitespace. -/
def py_strip (s : String) : String :=
  String.mk (((s.toList.dropWhile Char.isWhitespace).reverse.dropWhile
    Char.isWhitespace).reverse)

/-- Python slicing `s[:n]` (by code points). -/
def pyTake (s : String) (n : Nat) : String :=
  String.mk (s.toList.take n)

/-- Does `l` start with `needle`? (helper for substring tests). -/
def listStartsWith : List Char → List Char → Bool
  | [], _ => true
  | _ :: _, [] => false
  | n :: ns, h :: hs => n == h && listStartsWith ns hs

/-- Does `hay` contain `needle` as a contiguous run? -/
def listHasSub (needle : List Char) : List Char → Bool
  | [] => listStartsWith needle []
  | h :: hs => listStartsWith needle (h :: hs) || listHasSub needle hs

/-- Python `needle in hay` on strings. -/
def pyIn (needle hay : String) : Bool :=
  listHasSub needle.toList hay.toList

/-- Python `s.startswith(p)`. -/
def py_startswith (s p : String) : Bool :=
  listStartsWith p.toList s.toList

/-- Python `s.lower()` (ASCII case folding; only applied to URL schemes). -/
def stringLower (s : String) : String :=
  String.mk (s.toList.map Char.toLower)

/-- Python `s.upper()` (ASCII case folding; only used in log lines). -/
def stringUpper (s : String) : String :=
  String.mk (s.toList.map Char.toUpper)

/-- Python `s.strip("/")`: drop leading and trailing `/` characters
(main.py line 68: `urlparse(url).path.strip("/")`). -/
def stripSlashes (s : String) : String :=
  String.mk (((s.toList.dropWhile (fun c => c == '/')).reverse.dropWhile
    (fun c => c == '/')).reverse)

/-! ## `urllib.parse.urlparse`

Modelled from CPython `urllib/parse.py` (`urlsplit`), restricted to the
fields the program reads: `scheme`, `netloc`, `path`.  The unmatched-bracket
check raises `ValueError("Invalid IPv6 URL")` in every CPython version; the
additional bracketed-host validation of CPython ≥ 3.11 and the `;params`
split of `urlparse` are not modelled because no input analysed here contains
a matched bracket pair or a semicolon. -/

/-- The characters CPython allows in a URL scheme. -/
def scheme_chars : List Char :=
  "abcdefghijklmnopqrstuvwxyzABCDEFGHIJKLMNOPQRSTUVWXYZ0123456789+-.".toList

/-- CPython `urlsplit` scheme split: `url[:i].lower(), url[i+1:]` when the
text before the first `:` is a well-formed scheme. -/
def splitScheme (url : String) : String × String :=
  let l := url.toList
  match l.findIdx? (fun c => c == ':') with
  | some i =>
    if i != 0 && (l.headD ' ').isAlpha && (l.take i).all (fun c => scheme_chars.contains c) then
      (stringLower (String.mk (l.take i)), String.mk (l.drop (i + 1)))
    else ("", url)
  | none => ("", url)

/-- CPython `_splitnetloc`: the netloc runs up to the first `/`, `?` or `#`. -/
def splitNetloc (rest : List Char) : String × String :=
  let d := rest.findIdx (fun c => c == '/' || c == '?' || c == '#')
  (String.mk (rest.take d), String.mk (rest.drop d))

/-- Drop the query and fragment from the tail of a split URL. -/
def stripQueryFragment (s : String) : String :=
  String.mk (s.toList.takeWhile (fun c => c != '#' && c != '?'))

structure UrlParts where
  scheme : String
  netloc : String
  path : String
deriving DecidableEq, Repr

/-- CPython `urlparse` restricted to scheme/netloc/path.  `Except.error`
models the `ValueError("Invalid IPv6 URL")` raised on an unmatched bracket
in the authority component. -/
def urlparse (url : String) : Except String UrlParts :=
  let sr := splitScheme url
  if py_startswith sr.2 "//" then
    let nr := splitNetloc (sr.2.toList.drop 2)
    if (nr.1.toList.contains '[') != (nr.1.toList.contains ']') then
      Except.error "Invalid IPv6 URL"
    else
      Except.ok ⟨sr.1, nr.1, stripQueryFragment nr.2⟩
  else
    Except.ok ⟨sr.1, "", stripQueryFragment sr.2⟩

/-! ## Discovery heuristic: `universal_intercept` (main.py lines 61-111)

Network effects are externalised: `apiResp` is the decoded JSON of the
Prothom Alo collections endpoint (`none` models an exception in the request
or decode, handled by the bare `except: pass` at line 78), and `page` is the
list of anchor elements of the fetched section page after the noise removal
of lines 86-87 (`soup.find_all('a', href=True)`; `none` models an exception
in the fetch or parse, handled by the `except` at line 108). -/

structure Candidate where
  title : String
  link : String
deriving DecidableEq, Repr

/-- One entry of the API JSON `items` list: `item['story']`.  An absent or
`None` headline is modelled as `""` (both are falsy at line 75). -/
structure ApiStory where
  headline : String
  slug : String
deriving DecidableEq, Repr

/-- Lines 73-76: map API stories with a truthy headline to candidates. -/
def apiCandidates (its : List ApiStory) : List Candidate :=
  its.filterMap (fun it =>
    if it.headline != "" then
      some ⟨it.headline, "https://www.prothomalo.com/" ++ it.slug⟩
    else none)

/-- An anchor element with an `href` attribute: `text` is `a.get_text()`
(stripped inside the loop), `href` the attribute value. -/
structure Anchor where
  text : String
  href : String
deriving DecidableEq, Repr

/-- The headline filter at line 97:
`len(title) > 35 and title.count(' ') >= 4`. -/
def isHeadline (title : String) : Bool :=
  decide (35 < title.length) && decide (4 ≤ countSpaces title)

/-- The number of space-separated words of a string: maximal nonempty runs
of non-space characters.  This follows the SPEC's phrasing "at least 4
space-separated words", for comparison with `isHeadline`; it is not taken
from the source. -/
def countWordsAux : Bool → List Char → Nat
  | _, [] => 0
  | inWord, c :: rest =>
    if c == ' ' then countWordsAux false rest
    else (if inWord then 0 else 1) + countWordsAux true rest

/-- See `countWordsAux`; spec-phrased word count, not from the source. -/
def wordCount (s : String) : Nat :=
  countWordsAux false s.toList

/-- The headline filter as the SPEC words it: text length over 35 and at
least 4 space-separated words.  Stated for comparison with `isHeadline`;
not taken from the source. -/
def isHeadlineSpec (title : String) : Bool :=
  decide (35 < title.length) && decide (4 ≤ wordCount title)

/-- Lines 98-101: resolve a relative href against the origin of the fetched
page.  The `urlparse` call at line 100 sits inside the `try` of line 81, so
its failure is surfaced as `Except.error` and handled by the caller. -/
def resolveHref (url href : String) : Except String String :=
  if py_startswith href "http" then Except.ok href
  else
    match urlparse url with
    | Except.error e => Except.error e
    | Except.ok p =>
      Except.ok (p.scheme ++ "://" ++ p.netloc ++
        (if py_startswith href "/" then href else "/" ++ href))

/-- The anchor loop of lines 91-106: strip the text, keep anchors passing
`isHeadline`, resolve the href, deduplicate by resolved link, and break as
soon as 6 candidates are accumulated (the break is checked after every
anchor).  An exception while resolving is caught by the `except` at line
108 and the candidates accumulated so far are returned (line 111). -/
def genericLoop (url : String) : List Anchor → List Candidate → List Candidate
  | [], news => news
  | a :: rest, news =>
    let title := py_strip a.text
    if isHeadline title then
      match resolveHref url a.href with
      | Except.error _ => news
      | Except.ok href =>
        let news2 := if news.any (fun n => n.link == href) then news
                     else news ++ [⟨title, href⟩]
        if 6 ≤ news2.length then news2 else genericLoop url rest news2
    else
      if 6 ≤ news.length then news else genericLoop url rest news

/-- Lines 81-111: the generic scrape path.  `page = none` models a fetch or
parse exception: the handler logs and falls through to `return news`. -/
def genericCandidates (url : String) (page : Option (List Anchor))
    (news : List Candidate) : List Candidate :=
  match page with
  | none => news
  | some anchors => genericLoop url anchors news

/-- `universal_intercept(url, source_name)`, lines 61-111.  Note that the
`urlparse` call at line 68 sits OUTSIDE both `try` blocks, so its
`ValueError` propagates out of the function (`Except.error`). -/
def universal_intercept (url : String) (apiResp : Option (List ApiStory))
    (page : Option (List Anchor)) : Except String (List Candidate) :=
  if url = "" then Except.ok []
  else if pyIn "prothomalo" url then
    match urlparse url with
    | Except.error e => Except.error e
    | Except.ok parts =>
      let _slug := if pyIn "business" url || pyIn "economy" url then "business"
                   else stripSlashes parts.path
      let news := match apiResp with
        | none => ([] : List Candidate)
        | some its => apiCandidates its
      if news.isEmpty then Except.ok (genericCandidates url page news)
      else Except.ok news
  else
    Except.ok (genericCandidates url page [])

/-! ## Summarization adapter: `get_deep_summary` (main.py lines 113-126)

`page` is the list of texts of the `<p>` elements of the fetched article
(`none` models an exception in the fetch or parse); `model` is the
summarizer pipeline (`none` models an exception in inference, including the
`summary[0]` lookup).  Both exceptions are handled by the bare `except` at
line 126. -/

def AI_INIT_MSG : String := "AI CORE INITIALIZING. PREVIEW UNAVAILABLE."

def INSUFFICIENT_MSG : String :=
  "Dossier Notice: Link contains insufficient textual data for AI synthesis."

def INTERRUPTED_MSG : String := "Deep Link Analysis Interrupted."

def get_deep_summary (is_model_ready : Bool) (page : Option (List String))
    (model : String → Option String) : String :=
  if !is_model_ready then AI_INIT_MSG
  else
    match page with
    | none => INTERRUPTED_MSG
    | some paragraphs =>
      let txt := " ".intercalate (paragraphs.take 8)
      if txt.length < 200 then INSUFFICIENT_MSG
      else
        match model (pyTake txt 2500) with
        | none => INTERRUPTED_MSG
        | some s => s

/-! ## Sync engine: `background_worker` (main.py lines 129-155)

One cycle of the worker is modelled as a list of micro-steps over an
explicit state.  The registry copy `dict(TARGET_GRID)` taken at line 134 is
the `grid` parameter: the steps of a cycle are a function of that copy
alone, so registry edits made while the cycle is in flight cannot appear in
them.  Discovery and summarization results are supplied by the oracles
`disc` and `summ` (the observed return values of `universal_intercept` and
`get_deep_summary` for each input during this cycle). -/

structure OutletCfg where
  type : String
  paths : List (String × String)
deriving DecidableEq, Repr

structure IntelItem where
  title : String
  link : String
  source : String
  sector : String
  summary : String
  type : String
  time : String
deriving DecidableEq, Repr

/-- Lines 144-148: build one cache entry from a candidate. -/
def mkIntelItem (item : Candidate) (name sector summary ty now : String) :
    IntelItem :=
  ⟨item.title, item.link, name, sector, summary, ty, now⟩

/-- The items a completed cycle publishes (the final value of `temp_cache`):
for each outlet, for each section, the top 3 discovered candidates,
enriched with a summary. -/
def cycleItems (grid : List (String × OutletCfg))
    (disc : String → String → List Candidate) (summ : String → String)
    (now : String) : List IntelItem :=
  grid.flatMap (fun nc => nc.2.paths.flatMap (fun su =>
    ((disc su.2 nc.1).take 3).map (fun item =>
      mkIntelItem item nc.1 su.1 (summ item.link) nc.2.type now)))

/-- `add_log` (lines 39-45): append, evicting the oldest entry past 30.
The wall-clock prefix of the entry is treated as part of the message. -/
def add_log (logs : List String) (entry : String) : List String :=
  let l := logs ++ [entry]
  if 30 < l.length then l.drop 1 else l

/-- The mutable process state the worker touches: the published cache
`INTEL_CACHE`, the cycle-local buffer `temp_cache`, and `SYSTEM_LOGS`. -/
structure WorkerState where
  cache : List IntelItem
  temp : List IntelItem
  logs : List String
deriving DecidableEq, Repr

/-- What a reader of the query layer observes: `INTEL_CACHE`. -/
def current_snapshot (s : WorkerState) : List IntelItem :=
  s.cache

/-- One atomic micro-step of the worker loop body.  Every statement of
lines 132-151 is one of these; `publish` is the single assignment
`INTEL_CACHE = temp_cache` at line 150. -/
inductive MicroStep where
  | logMsg (msg : String)
  | resetTemp
  | appendItem (it : IntelItem)
  | publish
deriving DecidableEq, Repr

def MicroStep.run (st : MicroStep) (s : WorkerState) : WorkerState :=
  match st with
  | .logMsg m => { s with logs := add_log s.logs m }
  | .resetTemp => { s with temp := [] }
  | .appendItem it => { s with temp := s.temp ++ [it] }
  | .publish => { s with cache := s.temp }

/-- Lines 141-148: per-candidate steps (log, then append the built item). -/
def itemSteps (name sector ty now : String) (summ : String → String)
    (item : Candidate) : List MicroStep :=
  [MicroStep.logMsg ("SYNTHESIZING: " ++ pyTake item.title 40 ++ "..."),
   MicroStep.appendItem (mkIntelItem item name sector (summ item.link) ty now)]

/-- Lines 137-148: per-section steps. -/
def sectionSteps (disc : String → String → List Candidate)
    (summ : String → String) (name ty now : String) (su : String × String) :
    List MicroStep :=
  MicroStep.logMsg ("INTERCEPTING: " ++ stringUpper name ++ " -> " ++
    stringUpper su.1) ::
  ((disc su.2 name).take 3).flatMap (itemSteps name su.1 ty now summ)

/-- Lines 136-148: the loop body over the registry copy. -/
def bodySteps (grid : List (String × OutletCfg))
    (disc : String → String → List Candidate) (summ : String → String)
    (now : String) : List MicroStep :=
  grid.flatMap (fun nc => nc.2.paths.flatMap (sectionSteps disc summ nc.1 nc.2.type now))

/-- Lines 132-148: everything a cycle does before the publish assignment:
reset `temp_cache`, log the probe line, and run the loop body. -/
def preSteps (grid : List (String × OutletCfg))
    (disc : String → String → List Candidate) (summ : String → String)
    (now : String) : List MicroStep :=
  MicroStep.resetTemp ::
  MicroStep.logMsg "SYNC_ENGINE: PROBING GLOBAL TARGET GRID..." ::
  bodySteps grid disc summ now

/-- Line 151: the completion log line. -/
def finishStep (grid : List (String × OutletCfg))
    (disc : String → String → List Candidate) (summ : String → String)
    (now : String) : MicroStep :=
  MicroStep.logMsg ("SYNC_ENGINE: CACHE REFRESHED. " ++
    toString (cycleItems grid disc summ now).length ++ " PACKETS READY.")

/-- Lines 132-151: one full cycle, from `temp_cache = []` to the completion
log line.  The publish step is the single mutation of `INTEL_CACHE`. -/
def cycleSteps (grid : List (String × OutletCfg))
    (disc : String → String → List Candidate) (summ : String → String)
    (now : String) : List MicroStep :=
  preSteps grid disc summ now ++
    [MicroStep.publish, finishStep grid disc summ now]

/-- Run a list of micro-steps. -/
def runSteps (steps : List MicroStep) (s : WorkerState) : WorkerState :=
  steps.foldl (fun s st => st.run s) s

/-- Every state the process passes through while running `steps` from `s`,
including the initial and final states.  A concurrent reader calling the
query layer observes `current_snapshot` of one of these. -/
def states : List MicroStep → WorkerState → List WorkerState
  | [], s => [s]
  | st :: rest, s => s :: states rest (st.run s)

/-! ## Manual trigger: `threading.Event` (lines 29, 153-155, 193-197)

The event is a boolean latch.  `force_sync` (line 196) sets it; on wake the
worker clears it (line 155).  One WAITING period during which the trigger
is set `n` times is `waitPeriod`: the wait returns early iff the flag ended
up set, and the flag is cleared on wake. -/

/-- `trigger_sync_now.set()` (line 196). -/
def force_sync (_e : Bool) : Bool := true

/-- `trigger_sync_now.wait(timeout)` returns early iff the flag is set. -/
def wakeEarly (e : Bool) : Bool := e

/-- `trigger_sync_now.clear()` (line 155). -/
def clearTrigger (_e : Bool) : Bool := false

/-- One WAITING period with `n` calls to `force_sync` during it: returns
(did the wait wake early, the trigger state after the wake's clear). -/
def waitPeriod (e : Bool) (n : Nat) : Bool × Bool :=
  let e2 := force_sync^[n] e
  (wakeEarly e2, clearTrigger e2)

/-- A run of successive WAITING periods, the `i`-th seeing `ns[i]` calls to
`force_sync`; counts the periods that woke early (the extra triggered
cycles). -/
def runPeriods : Bool → List Nat → Nat
  | _, [] => 0
  | e, n :: rest =>
    let r := waitPeriod e n
    (if r.1 then 1 else 0) + runPeriods r.2 rest

/-- Is a micro-step one of the loop-body steps (log or append)?  Used to
state that the body of a cycle never touches the published cache. -/
def isPlainStep : MicroStep → Bool
  | .logMsg _ => true
  | .appendItem _ => true
  | _ => false

/-- Is a micro-step anything but the publish assignment? -/
def noPublish : MicroStep → Bool
  | .publish => false
  | _ => true

/-- The items appended by a list of micro-steps, in order. -/
def appendsOf (steps : List MicroStep) : List IntelItem :=
  steps.filterMap (fun st =>
    match st with
    | .appendItem it => some it
    | _ => none)

/-! ## Query filter: `fetch_news` (lines 180-184) -/

/-- Line 183: keep the cached items whose source is selected and whose
sector is selected or whose type is international. -/
def fetch_news (cache : List IntelItem)
    (selected_sources selected_sectors : List String) : List IntelItem :=
  cache.filter (fun n =>
    selected_sources.contains n.source &&
    (selected_sectors.contains n.sector || n.type == "international"))

/-! # Theorems -/

/-- C4: the headline filter's boundary: text of length exactly 35 is
rejected (strict threshold); text of length 36 with 4 spaces is accepted;
text of length 36 with 3 spaces is rejected. -/
theorem claim_C4_boundary (t : String) :
    (t.length = 35 → isHeadline t = false) ∧
    (t.length = 36 → countSpaces t = 4 → isHeadline t = true) ∧
    (t.length = 36 → countSpaces t = 3 → isHeadline t = false) := by
  refine ⟨fun h => ?_, fun h hs => ?_, fun h hs => ?_⟩
  · simp [isHeadline, h]
  · simp [isHeadline, h, hs]
  · simp [isHeadline, h, hs]

theorem claim_C4_boundary_witness :
    isHeadline "aaaaaaaaaaaaaaaaaaaaaaaaaaaaaaaaaaa" = false ∧
    isHeadline "aaaaaaa aaaaaaa aaaaaaa aaaaaaa aaaa" = true ∧
    isHeadline "aaaaaaaaa aaaaaaaa aaaaaaaa aaaaaaaa" = false :=
  ⟨(claim_C4_boundary "aaaaaaaaaaaaaaaaaaaaaaaaaaaaaaaaaaa").1 (by decide),
   (claim_C4_boundary "aaaaaaa aaaaaaa aaaaaaa aaaaaaa aaaa").2.1 (by decide)
     (by decide),
   (claim_C4_boundary "aaaaaaaaa aaaaaaaa aaaaaaaa aaaaaaaa").2.2 (by decide)
     (by decide)⟩

/-- C3 counterexample: the claim's acceptance rule (length over 35 AND at
least 4 space-separated words, `isHeadlineSpec`) does not match the code.
The anchor text here has 39 characters and exactly 4 space-separated words
(3 spaces), so the claim accepts it, but `genericLoop` rejects it because
`title.count(' ') >= 4` fails. -/
theorem claim_C3_counterexample :
    ¬ ((genericLoop "https://example.com/s"
          [⟨"aaaaaaaaa bbbbbbbbb ccccccccc ddddddddd", "https://e.com/x"⟩]
          [] ≠ []) ↔
       isHeadlineSpec
         (py_strip "aaaaaaaaa bbbbbbbbb ccccccccc ddddddddd") = true) := by
  decide

/-- C3 (amended): in the generic discovery path, a lone anchor with an
absolute link is accepted as a headline candidate iff its stripped visible
text has length exceeding 35 AND contains at least 4 space characters
(i.e. at least 5 space-separated words), which is the `isHeadline` test of
line 97. -/
theorem claim_C3_amended_acceptance (url : String) (a : Anchor)
    (hhref : py_startswith a.href "http" = true) :
    genericLoop url [a] [] ≠ [] ↔ isHeadline (py_strip a.text) = true := by
  cases h : isHeadline (py_strip a.text) with
  | true =>
    simp only [genericLoop, resolveHref, hhref, h, if_true]
    simp [genericLoop]
  | false =>
    simp [genericLoop, h]

theorem claim_C3_amended_witness :
    genericLoop "https://example.com/s"
      [⟨"aaaaaaaa bbbbbbbb cccccccc dddddddd eee", "https://e.com/x"⟩]
      [] ≠ [] :=
  (claim_C3_amended_acceptance "https://example.com/s"
    ⟨"aaaaaaaa bbbbbbbb cccccccc dddddddd eee", "https://e.com/x"⟩
    (by decide)).mpr (by decide)

/-- C10: the `/fetch-news` filter returns a cached item iff its source is
among the selected sources and its sector is among the selected sectors or
its type is international. -/
theorem claim_C10_filter_iff (cache : List IntelItem)
    (selected_sources selected_sectors : List String) (n : IntelItem) :
    n ∈ fetch_news cache selected_sources selected_sectors ↔
      (n ∈ cache ∧ n.source ∈ selected_sources ∧
        (n.sector ∈ selected_sectors ∨ n.type = "international")) := by
  simp [fetch_news, List.mem_filter, and_assoc]

/-- C6: with the model ready, if the space-joined text of the first 8
paragraphs is shorter than 200 characters, `get_deep_summary` returns the
insufficient-data sentinel for EVERY model (so the model is not invoked);
if it is at least 200 characters long, the result is exactly the handling
of the model applied to the first 2500 characters of that text. -/
theorem claim_C6_summary_threshold (paragraphs : List String) :
    (( " ".intercalate (paragraphs.take 8)).length < 200 →
      ∀ model, get_deep_summary true (some paragraphs) model =
        INSUFFICIENT_MSG) ∧
    (200 ≤ (" ".intercalate (paragraphs.take 8)).length →
      ∀ model, get_deep_summary true (some paragraphs) model =
        (match model (pyTake (" ".intercalate (paragraphs.take 8)) 2500) with
         | none => INTERRUPTED_MSG
         | some s => s)) := by
  constructor
  · intro h model
    simp [get_deep_summary, h]
  · intro h model
    simp [get_deep_summary, Nat.not_lt.mpr h]

theorem claim_C6_summary_threshold_witness :
    get_deep_summary true (some [String.mk (List.replicate 250 'a')])
      (fun _ => some "SYNTH") = "SYNTH" :=
  (claim_C6_summary_threshold [String.mk (List.replicate 250 'a')]).2
    (by decide) (fun _ => some "SYNTH")

/-- C7: `get_deep_summary` is a total function into sentinel-or-summary
strings: with the model not ready it returns the initializing sentinel for
every page and model (in particular independently of any fetch); a fetch or
parse exception yields the interrupted sentinel; an inference exception
yields the interrupted sentinel. -/
theorem claim_C7_sentinels :
    (∀ page model, get_deep_summary false page model = AI_INIT_MSG) ∧
    (∀ model, get_deep_summary true none model = INTERRUPTED_MSG) ∧
    (∀ paragraphs model,
      200 ≤ (" ".intercalate (paragraphs.take 8)).length →
      model (pyTake (" ".intercalate (paragraphs.take 8)) 2500) = none →
      get_deep_summary true (some paragraphs) model = INTERRUPTED_MSG) := by
  refine ⟨fun page model => rfl, fun model => rfl, fun paragraphs model h hm => ?_⟩
  simp [get_deep_summary, Nat.not_lt.mpr h, hm]

theorem claim_C7_sentinels_witness :
    get_deep_summary true (some [String.mk (List.replicate 250 'a')])
      (fun _ => none) = INTERRUPTED_MSG :=
  claim_C7_sentinels.2.2 [String.mk (List.replicate 250 'a')]
    (fun _ => none) (by decide) rfl

/-- C8: the code violates the never-raises contract of discovery: for a
malformed URL that contains "prothomalo" and an unmatched bracket in its
authority, the `urlparse` call at line 68 sits outside both `try` blocks
and its `ValueError("Invalid IPv6 URL")` propagates out of
`universal_intercept` instead of an empty list being returned. -/
theorem claim_C8_urlparse_escape :
    universal_intercept "http://[prothomalo" none none =
      Except.error "Invalid IPv6 URL" := by
  rfl

/-- Iterating `Event.set` at least once leaves the flag set. -/
theorem iterate_force_sync (n : Nat) (e : Bool) :
    force_sync^[n + 1] e = true := by
  rw [Function.iterate_succ_apply]
  show force_sync^[n] true = true
  exact Function.iterate_fixed rfl n

/-- C9: `force_sync_now` is idempotent: a WAITING period during which the
trigger is set `n ≥ 1` times contributes exactly one extra triggered
cycle, not `n`, and the trigger is cleared on wake so the remaining
periods are unaffected. -/
theorem claim_C9_force_sync_idempotent (n : Nat) (rest : List Nat)
    (h : 1 ≤ n) :
    runPeriods false (n :: rest) = 1 + runPeriods false rest := by
  obtain ⟨m, rfl⟩ := Nat.exists_eq_add_of_le h
  simp [runPeriods, waitPeriod, wakeEarly, clearTrigger,
    Nat.add_comm 1 m, iterate_force_sync]

theorem claim_C9_force_sync_witness :
    runPeriods false (5 :: [0]) = 1 + runPeriods false [0] :=
  claim_C9_force_sync_idempotent 5 [0] (by decide)

/-- The generic anchor loop never grows the candidate list past 6 when it
starts below 6 (the break at line 106 is checked after every anchor). -/
theorem genericLoop_length_le (url : String) (anchors : List Anchor) :
    ∀ news : List Candidate, news.length < 6 →
      (genericLoop url anchors news).length ≤ 6 := by
  induction anchors with
  | nil =>
    intro news h
    exact Nat.le_of_lt h
  | cons a rest ih =>
    intro news h
    simp only [genericLoop]
    by_cases hh : isHeadline (py_strip a.text) = true
    · rw [if_pos hh]
      cases hres : resolveHref url a.href with
      | error e => exact Nat.le_of_lt h
      | ok href =>
        dsimp only
        by_cases ha : news.any (fun n => n.link == href) = true
        · rw [if_pos ha, if_neg (by omega)]
          exact ih news h
        · rw [if_neg ha]
          by_cases h6 :
              6 ≤ (news ++ [(⟨py_strip a.text, href⟩ : Candidate)]).length
          · rw [if_pos h6]
            simp only [List.length_append, List.length_cons, List.length_nil]
            omega
          · rw [if_neg h6]
            exact ih _ (by omega)
    · rw [if_neg hh, if_neg (by omega)]
      exact ih news h

/-- The generic anchor loop preserves distinctness of the resolved links of
the candidate list (the membership test of line 103). -/
theorem genericLoop_links_nodup (url : String) (anchors : List Anchor) :
    ∀ news : List Candidate, (news.map Candidate.link).Nodup →
      ((genericLoop url anchors news).map Candidate.link).Nodup := by
  induction anchors with
  | nil =>
    intro news h
    exact h
  | cons a rest ih =>
    intro news h
    simp only [genericLoop]
    by_cases hh : isHeadline (py_strip a.text) = true
    · rw [if_pos hh]
      cases hres : resolveHref url a.href with
      | error e => exact h
      | ok href =>
        dsimp only
        by_cases ha : news.any (fun n => n.link == href) = true
        · rw [if_pos ha]
          by_cases h6 : 6 ≤ news.length
          · rw [if_pos h6]
            exact h
          · rw [if_neg h6]
            exact ih news h
        · rw [if_neg ha]
          have hnotin : href ∉ news.map Candidate.link := by
            intro hmem
            apply ha
            rw [List.any_eq_true]
            obtain ⟨n, hn, hlink⟩ := List.mem_map.mp hmem
            exact ⟨n, hn, by simp [hlink]⟩
          have h2 : ((news ++ [(⟨py_strip a.text, href⟩ : Candidate)]).map
              Candidate.link).Nodup := by
            simp only [List.map_append, List.map_cons, List.map_nil]
            simp [List.nodup_append, h, hnotin]
          by_cases h6 : 6 ≤ (news ++ [(⟨py_strip a.text, href⟩ : Candidate)]).length
          · rw [if_pos h6]
            exact h2
          · rw [if_neg h6]
            exact ih _ h2
    · rw [if_neg hh]
      by_cases h6 : 6 ≤ news.length
      · rw [if_pos h6]
        exact h
      · rw [if_neg h6]
        exact ih news h

/-- C5 counterexample: on the structured (API) path the code performs no
deduplication: an API response repeating one story yields a returned
candidate list with a duplicated resolved link, so the claim as stated
(dedup by resolved link on both paths) is false. -/
theorem claim_C5_counterexample :
    universal_intercept "https://www.prothomalo.com/politics"
      (some [⟨"Duplicate headline", "x"⟩, ⟨"Duplicate headline", "x"⟩])
      none =
      Except.ok [⟨"Duplicate headline", "https://www.prothomalo.com/x"⟩,
                 ⟨"Duplicate headline", "https://www.prothomalo.com/x"⟩] ∧
    ¬ (([⟨"Duplicate headline", "https://www.prothomalo.com/x"⟩,
         ⟨"Duplicate headline", "https://www.prothomalo.com/x"⟩] :
        List Candidate).map Candidate.link).Nodup :=
  ⟨rfl, by decide⟩

/-- C5 (amended): on the GENERIC heuristic path one discovery call returns
at most 6 candidates, deduplicated by resolved link (collection stops once
6 are accumulated); on the structured API path the code returns one
candidate per response story with a truthy headline, as-is — bounded only
by the requested page size, with no in-code deduplication or cap. -/
theorem claim_C5_amended_caps :
    (∀ (url : String) (anchors : List Anchor),
      (genericLoop url anchors []).length ≤ 6 ∧
      ((genericLoop url anchors []).map Candidate.link).Nodup) ∧
    (∀ (url : String) (its : List ApiStory) (page : Option (List Anchor))
      (parts : UrlParts),
      url ≠ "" → pyIn "prothomalo" url = true →
      urlparse url = Except.ok parts → apiCandidates its ≠ [] →
      universal_intercept url (some its) page =
        Except.ok (apiCandidates its)) := by
  constructor
  · intro url anchors
    exact ⟨genericLoop_length_le url anchors [] (by decide),
           genericLoop_links_nodup url anchors [] (by simp)⟩
  · intro url its page parts hurl hpy hparts hne
    simp only [universal_intercept, if_neg hurl, hpy, if_true, hparts]
    rw [if_neg]
    simpa [List.isEmpty_iff] using hne

theorem runSteps_cons (st : MicroStep) (l : List MicroStep) (s : WorkerState) :
    runSteps (st :: l) s = runSteps l (st.run s) :=
  rfl

theorem runSteps_append (l₁ l₂ : List MicroStep) (s : WorkerState) :
    runSteps (l₁ ++ l₂) s = runSteps l₂ (runSteps l₁ s) := by
  simp [runSteps, List.foldl_append]

/-- A non-publish micro-step leaves the published cache unchanged. -/
theorem noPublish_run_cache {st : MicroStep} (h : noPublish st = true)
    (s : WorkerState) : (st.run s).cache = s.cache := by
  cases st with
  | logMsg m => rfl
  | resetTemp => rfl
  | appendItem it => rfl
  | publish => simp [noPublish] at h

theorem isPlainStep_noPublish {st : MicroStep} (h : isPlainStep st = true) :
    noPublish st = true := by
  cases st <;> simp_all [isPlainStep, noPublish]

/-- Running publish-free steps leaves the published cache unchanged. -/
theorem runSteps_noPublish_cache (steps : List MicroStep) :
    ∀ s : WorkerState, (∀ st ∈ steps, noPublish st = true) →
      (runSteps steps s).cache = s.cache := by
  induction steps with
  | nil => intro s _; rfl
  | cons st rest ih =>
    intro s h
    rw [runSteps_cons, ih _ (fun x hx => h x (List.mem_cons_of_mem st hx)),
      noPublish_run_cache (h st (List.mem_cons_self st rest))]

/-- Running log/append steps leaves the cache unchanged and appends exactly
the items of the steps to the buffer, in order. -/
theorem runSteps_plain (steps : List MicroStep) :
    ∀ s : WorkerState, (∀ st ∈ steps, isPlainStep st = true) →
      (runSteps steps s).cache = s.cache ∧
      (runSteps steps s).temp = s.temp ++ appendsOf steps := by
  induction steps with
  | nil => intro s _; simp [runSteps, appendsOf]
  | cons st rest ih =>
    intro s h
    have hrest : ∀ x ∈ rest, isPlainStep x = true :=
      fun x hx => h x (List.mem_cons_of_mem st hx)
    have hst := h st (List.mem_cons_self st rest)
    rw [runSteps_cons]
    cases st with
    | logMsg m =>
      refine ⟨(ih _ hrest).1, ?_⟩
      rw [(ih _ hrest).2]
      simp [MicroStep.run, appendsOf]
    | appendItem it =>
      refine ⟨(ih _ hrest).1, ?_⟩
      rw [(ih _ hrest).2]
      simp [MicroStep.run, appendsOf]
    | resetTemp => simp [isPlainStep] at hst
    | publish => simp [isPlainStep] at hst

/-- Every step of the loop body is a log or an append: the body never
publishes and never resets the buffer. -/
theorem bodySteps_plain (grid : List (String × OutletCfg))
    (disc : String → String → List Candidate) (summ : String → String)
    (now : String) :
    ∀ st ∈ bodySteps grid disc summ now, isPlainStep st = true := by
  intro st hst
  simp only [bodySteps, sectionSteps, itemSteps, List.mem_flatMap,
    List.mem_cons, List.not_mem_nil, or_false] at hst
  obtain ⟨nc, _, su, _, h⟩ := hst
  rcases h with rfl | ⟨item, _, rfl | rfl⟩ <;> rfl

theorem appendsOf_append (l₁ l₂ : List MicroStep) :
    appendsOf (l₁ ++ l₂) = appendsOf l₁ ++ appendsOf l₂ := by
  simp [appendsOf, List.filterMap_append]

/-- The items appended while processing the top candidates of one section. -/
theorem appendsOf_item_list (name sector ty now : String)
    (summ : String → String) (l : List Candidate) :
    appendsOf (l.flatMap (itemSteps name sector ty now summ)) =
      l.map (fun item =>
        mkIntelItem item name sector (summ item.link) ty now) := by
  induction l with
  | nil => rfl
  | cons item rest ih =>
    rw [List.flatMap_cons, appendsOf_append, ih]
    rfl

/-- The items appended while processing one outlet section. -/
theorem appendsOf_sectionSteps (disc : String → String → List Candidate)
    (summ : String → String) (name ty now : String) (su : String × String) :
    appendsOf (sectionSteps disc summ name ty now su) =
      ((disc su.2 name).take 3).map (fun item =>
        mkIntelItem item name su.1 (summ item.link) ty now) := by
  simp only [sectionSteps]
  rw [show ∀ (m : String) (l : List MicroStep),
      appendsOf (MicroStep.logMsg m :: l) = appendsOf l from
    fun m l => rfl]
  exact appendsOf_item_list name su.1 ty now summ _

/-- The items appended while processing one outlet's sections. -/
theorem appendsOf_paths (disc : String → String → List Candidate)
    (summ : String → String) (name ty now : String)
    (paths : List (String × String)) :
    appendsOf (paths.flatMap (sectionSteps disc summ name ty now)) =
      paths.flatMap (fun su => ((disc su.2 name).take 3).map (fun item =>
        mkIntelItem item name su.1 (summ item.link) ty now)) := by
  induction paths with
  | nil => rfl
  | cons su ps ihp =>
    rw [List.flatMap_cons, appendsOf_append, appendsOf_sectionSteps, ihp,
      List.flatMap_cons]

/-- The items appended by the whole loop body are exactly the items the
cycle publishes. -/
theorem appendsOf_body (grid : List (String × OutletCfg))
    (disc : String → String → List Candidate) (summ : String → String)
    (now : String) :
    appendsOf (bodySteps grid disc summ now) =
      cycleItems grid disc summ now := by
  induction grid with
  | nil => rfl
  | cons nc rest ih =>
    rw [bodySteps, List.flatMap_cons, appendsOf_append, ← bodySteps, ih,
      appendsOf_paths]
    simp [cycleItems, List.flatMap_cons]

/-- Running a cycle's pre-publish steps: the cache is untouched and the
buffer ends holding exactly the cycle's items. -/
theorem preSteps_run (grid : List (String × OutletCfg))
    (disc : String → String → List Candidate) (summ : String → String)
    (now : String) (s0 : WorkerState) :
    (runSteps (preSteps grid disc summ now) s0).cache = s0.cache ∧
    (runSteps (preSteps grid disc summ now) s0).temp =
      cycleItems grid disc summ now := by
  have h := runSteps_plain (bodySteps grid disc summ now)
    (MicroStep.run (MicroStep.logMsg "SYNC_ENGINE: PROBING GLOBAL TARGET GRID...")
      (MicroStep.run MicroStep.resetTemp s0))
    (bodySteps_plain grid disc summ now)
  rw [preSteps, runSteps_cons, runSteps_cons]
  refine ⟨h.1, ?_⟩
  rw [h.2, appendsOf_body]
  rfl

/-- The cache published by a completed cycle is exactly `cycleItems`. -/
theorem runSteps_cycle_cache (grid : List (String × OutletCfg))
    (disc : String → String → List Candidate) (summ : String → String)
    (now : String) (s0 : WorkerState) :
    (runSteps (cycleSteps grid disc summ now) s0).cache =
      cycleItems grid disc summ now := by
  rw [cycleSteps, runSteps_append]
  exact (preSteps_run grid disc summ now s0).2

/-- Splitting a run: every intermediate state belongs to the first part or
to the second part started from the first part's final state. -/
theorem states_mem_append (l₁ l₂ : List MicroStep) :
    ∀ s0 s : WorkerState, s ∈ states (l₁ ++ l₂) s0 →
      s ∈ states l₁ s0 ∨ s ∈ states l₂ (runSteps l₁ s0) := by
  induction l₁ with
  | nil =>
    intro s0 s h
    right
    exact h
  | cons st rest ih =>
    intro s0 s h
    rcases List.mem_cons.mp h with rfl | h2
    · left
      exact List.mem_cons_self _ _
    · rcases ih (st.run s0) s h2 with h3 | h4
      · left
        exact List.mem_cons_of_mem _ h3
      · right
        exact h4

/-- No intermediate state of a publish-free run shows a changed cache. -/
theorem states_noPublish_cache (steps : List MicroStep) :
    ∀ s0 : WorkerState, (∀ st ∈ steps, noPublish st = true) →
      ∀ s ∈ states steps s0, s.cache = s0.cache := by
  induction steps with
  | nil =>
    intro s0 _ s hs
    rcases List.mem_singleton.mp hs with rfl
    rfl
  | cons st rest ih =>
    intro s0 h s hs
    rcases List.mem_cons.mp hs with rfl | h2
    · rfl
    · rw [ih (st.run s0) (fun x hx => h x (List.mem_cons_of_mem st hx)) s h2,
        noPublish_run_cache (h st (List.mem_cons_self st rest))]

/-- Every pre-publish step of a cycle is publish-free. -/
theorem preSteps_noPublish (grid : List (String × OutletCfg))
    (disc : String → String → List Candidate) (summ : String → String)
    (now : String) :
    ∀ st ∈ preSteps grid disc summ now, noPublish st = true := by
  intro st hst
  rcases List.mem_cons.mp hst with rfl | hst2
  · rfl
  rcases List.mem_cons.mp hst2 with rfl | hst3
  · rfl
  exact isPlainStep_noPublish (bodySteps_plain grid disc summ now st hst3)

/-- C1: snapshot atomicity.  At EVERY intermediate point of a running
cycle, a reader of `current_snapshot` observes either the previously
published snapshot or the fully-built new one — never a mixture or an
intermediate length — because the publish assignment of line 150 is the
only mutation of the published cache. -/
theorem claim_C1_snapshot_atomicity (grid : List (String × OutletCfg))
    (disc : String → String → List Candidate) (summ : String → String)
    (now : String) (s0 s : WorkerState)
    (h : s ∈ states (cycleSteps grid disc summ now) s0) :
    current_snapshot s = current_snapshot s0 ∨
      current_snapshot s = cycleItems grid disc summ now := by
  rw [cycleSteps] at h
  rcases states_mem_append _ _ s0 s h with h1 | h2
  · left
    exact states_noPublish_cache _ s0 (preSteps_noPublish grid disc summ now) s h1
  · have hs1 := preSteps_run grid disc summ now s0
    have h3 : s = runSteps (preSteps grid disc summ now) s0 ∨
        s = MicroStep.publish.run (runSteps (preSteps grid disc summ now) s0) ∨
        s = (finishStep grid disc summ now).run
          (MicroStep.publish.run (runSteps (preSteps grid disc summ now) s0)) := by
      simpa [states] using h2
    rcases h3 with rfl | rfl | rfl
    · left
      exact hs1.1
    · right
      show (MicroStep.publish.run _).cache = _
      rw [show ∀ x : WorkerState, (MicroStep.publish.run x).cache = x.temp from
        fun x => rfl]
      exact hs1.2
    · right
      show ((finishStep grid disc summ now).run (MicroStep.publish.run _)).cache = _
      rw [finishStep,
        show ∀ (m : String) (x : WorkerState),
          ((MicroStep.logMsg m).run x).cache = x.cache from fun m x => rfl,
        show ∀ x : WorkerState, (MicroStep.publish.run x).cache = x.temp from
          fun x => rfl]
      exact hs1.2

theorem claim_C1_snapshot_atomicity_witness :
    current_snapshot (⟨[], [], []⟩ : WorkerState) =
        current_snapshot (⟨[], [], []⟩ : WorkerState) ∨
      current_snapshot (⟨[], [], []⟩ : WorkerState) =
        cycleItems [] (fun _ _ => []) (fun _ => "") "" :=
  claim_C1_snapshot_atomicity [] (fun _ _ => []) (fun _ => "") ""
    ⟨[], [], []⟩ ⟨[], [], []⟩ (by simp [states, cycleSteps, preSteps, bodySteps])

/-- C2: every item of the snapshot published by a completed cycle carries a
`source` that is an outlet name of the registry copy taken at cycle start
(the `dict(TARGET_GRID)` of line 134); the cycle's steps are a function of
that copy alone, so outlets added to or removed from the live registry
while the cycle is in flight cannot appear. -/
theorem claim_C2_sources_from_cycle_start (grid : List (String × OutletCfg))
    (disc : String → String → List Candidate) (summ : String → String)
    (now : String) (s0 : WorkerState) (it : IntelItem)
    (h : it ∈ (runSteps (cycleSteps grid disc summ now) s0).cache) :
    it.source ∈ grid.map Prod.fst := by
  rw [runSteps_cycle_cache] at h
  simp only [cycleItems, List.mem_flatMap, List.mem_map] at h
  obtain ⟨nc, hnc, su, _, item, _, heq⟩ := h
  rw [← heq]
  exact List.mem_map.mpr ⟨nc, hnc, rfl⟩

theorem claim_C2_sources_witness :
    (mkIntelItem ⟨"T", "L"⟩ "Prothom Alo" "Politics" "S" "national"
        "00:00").source ∈
      (([("Prothom Alo",
          (⟨"national", [("Politics", "u")]⟩ : OutletCfg))]).map Prod.fst :
        List String) :=
  claim_C2_sources_from_cycle_start
    [("Prothom Alo", ⟨"national", [("Politics", "u")]⟩)]
    (fun _ _ => [⟨"T", "L"⟩]) (fun _ => "S") "00:00" ⟨[], [], []⟩
    (mkIntelItem ⟨"T", "L"⟩ "Prothom Alo" "Politics" "S" "national" "00:00")
    (by decide)

theorem claim_C5_amended_witness :
    universal_intercept "https://www.prothomalo.com/politics"
      (some [⟨"Headline", "story-slug"⟩]) none =
      Except.ok (apiCandidates [⟨"Headline", "story-slug"⟩]) :=
  claim_C5_amended_caps.2 "https://www.prothomalo.com/politics"
    [⟨"Headline", "story-slug"⟩] none
    ⟨"https", "www.prothomalo.com", "/politics"⟩
    (by decide) (by decide) rfl (by decide)

end Militery
